import Mathlib

/-!
Shallow embedding of `src/bin/plugin/lib/milestone.js` (the whole
repository: two async helpers over a paginated REST client).

Modelling choices:
* The injected REST client is replaced by the data it would deliver:
  each paginated endpoint becomes a list of pages, where a page is either
  `Except.ok` (the page's records) or `Except.error` (the client rejecting
  at that fetch, i.e. a transport/auth failure).  A rejected promise inside
  a `for await` loop aborts the loop and propagates, which is exactly what
  the `Except` plumbing below does.
* ISO-8601 timestamp strings (`published_at`, `closed_at`) are modelled as
  `Option Int`: `none` is JSON `null`, `some t` a valid timestamp.  The
  JavaScript comparison `new Date(a) < new Date(b)` on valid timestamps is
  the integer comparison, and the truthiness tests
  `latestReleaseInSeries?.published_at` and `pull.closed_at` are
  `Option.isSome` on this model.
* `release.name` is `Option String` because the hosting API delivers
  `null` names; `release.name.startsWith(series)` on a `null` name throws
  a `TypeError`, modelled by `JsError.typeError`.
* Issue records carry an opaque identity (`id`) beside the one field the
  code inspects (`closed_at`).
-/

deriving instance DecidableEq for Except

namespace Gutenberg

/-- An error escaping the operation: a client (transport/auth) failure, or
a thrown `TypeError`. -/
inductive JsError where
  | transport (msg : String)
  | typeError (msg : String)
deriving DecidableEq, Repr

/-- A milestone record: the fields the module reads. -/
structure Milestone where
  number : Nat
  title : String
deriving DecidableEq, Repr

/-- A release record: `name` and `published_at` may be `null`. -/
structure Release where
  name : Option String
  published_at : Option Int
deriving DecidableEq, Repr

/-- An issue / pull-request record: an opaque identity plus the nullable
`closed_at` timestamp, the only field the module inspects. -/
structure Issue where
  id : Nat
  closed_at : Option Int
deriving DecidableEq, Repr

/-- Removal of the first occurrence of `pat` from a character list:
the semantics of JavaScript `String.prototype.replace(pat, '')` with a
string pattern, which replaces only the first occurrence, anywhere in the
string, and leaves the string unchanged when `pat` does not occur. -/
def removeFirst (pat : List Char) : List Char → List Char
  | [] => []
  | c :: rest =>
    if pat.isPrefixOf (c :: rest) then (c :: rest).drop pat.length
    else c :: removeFirst pat rest

/-- Embedding of line 63: `milestoneResponse.data.title.replace( 'Gutenberg ', '' )`. -/
def seriesOf (title : String) : String :=
  String.mk (removeFirst "Gutenberg ".toList title.toList)

/-- `pat` occurs as a contiguous substring of the list (decidable helper
used to phrase when `removeFirst` is the identity). -/
def hasSubstr (pat : List Char) : List Char → Bool
  | [] => pat.isEmpty
  | c :: rest => pat.isPrefixOf (c :: rest) || hasSubstr pat rest

/-- Embedding of `getMilestoneByTitle` (lines 25–42): walk the milestone
pages in order; inside a page, return the first milestone whose title is
strictly equal to the target (`milestone.title === title`); a client error
at a page fetch propagates; after the last page, resolve to `undefined`
(here `none`). -/
def getMilestoneByTitle (title : String) :
    List (Except JsError (List Milestone)) → Except JsError (Option Milestone)
  | [] => Except.ok none
  | Except.error e :: _ => Except.error e
  | Except.ok milestones :: rest =>
    match milestones.find? (fun m => m.title == title) with
    | some m => Except.ok (some m)
    | none => getMilestoneByTitle title rest

/-- JavaScript `s.startsWith(pre)`: `pre`'s character sequence is a prefix
of `s`'s. -/
def jsStartsWith (s pre : String) : Bool :=
  pre.toList.isPrefixOf s.toList

/-- Embedding of `releasesPage.data.find( ( release ) => release.name.startsWith( series ) )`
(lines 74–76): `Array.prototype.find` scans left to right and its callback
dereferences `release.name`, throwing a `TypeError` when the name is `null`. -/
def findReleaseInPage (series : String) : List Release → Except JsError (Option Release)
  | [] => Except.ok none
  | r :: rest =>
    match r.name with
    | none =>
      Except.error (JsError.typeError "Cannot read properties of null (reading startsWith)")
    | some n =>
      if jsStartsWith n series then Except.ok (some r)
      else findReleaseInPage series rest

/-- Embedding of the release scan loop (lines 73–82): fetch release pages
in order, run `find` on each, and `break` on the first page yielding a
match; a client error at a page fetch, or a `TypeError` thrown inside
`find`, propagates. -/
def scanReleases (series : String) :
    List (Except JsError (List Release)) → Except JsError (Option Release)
  | [] => Except.ok none
  | Except.error e :: _ => Except.error e
  | Except.ok page :: rest =>
    match findReleaseInPage series page with
    | Except.error e => Except.error e
    | Except.ok (some r) => Except.ok (some r)
    | Except.ok none => scanReleases series rest

/-- The issue-list query object built at lines 84–92.  `since` is present
exactly when the spread `...( latestReleaseInSeries && { since: … } )`
fires, i.e. when a release was found; its value is that release's
`published_at` (possibly `null`). -/
structure IssueQuery where
  milestone : Nat
  state : Option String
  since : Option (Option Int)
deriving DecidableEq, Repr

/-- Embedding of lines 84–92: merge owner/repo/milestone/state, and spread
`{ since: latestReleaseInSeries.published_at }` when a release was found. -/
def buildIssueQuery (milestone : Nat) (state : Option String)
    (latestReleaseInSeries : Option Release) : IssueQuery :=
  { milestone := milestone
    state := state
    since := latestReleaseInSeries.map (fun r => r.published_at) }

/-- Embedding of the issue pagination loop (lines 94–104): append each
page's records to the accumulator in fetch order; a client error at a page
fetch aborts, discarding the partial accumulation. -/
def paginateConcat {α : Type} : List (Except JsError (List α)) → Except JsError (List α)
  | [] => Except.ok []
  | Except.error e :: _ => Except.error e
  | Except.ok page :: rest =>
    match paginateConcat rest with
    | Except.error e => Except.error e
    | Except.ok tail => Except.ok (page ++ tail)

/-- The remote data a single `getIssuesByMilestone` call observes: the
milestone-by-ID response, the release pages, and the issue pages delivered
for the query the code builds. -/
structure CollectorEnv where
  milestoneFetch : Except JsError Milestone
  releasePages : List (Except JsError (List Release))
  issuePages : IssueQuery → List (Except JsError (List Issue))

/-- The post-filter predicate of lines 110–114:
`pull.closed_at && latestReleasePublishedAtTimestamp < new Date( pull.closed_at )`. -/
def closedAfter (ts : Int) (pull : Issue) : Bool :=
  match pull.closed_at with
  | none => false
  | some c => ts < c

/-- Embedding of `getIssuesByMilestone` (lines 57–118): fetch the
milestone, derive the series, scan releases for the first name starting
with the series, build the issue query, accumulate the issue pages, and —
only when `latestReleaseInSeries?.published_at` is truthy — keep the
issues closed strictly after the release's publish timestamp. -/
def getIssuesByMilestone (env : CollectorEnv) (milestone : Nat)
    (state : Option String) : Except JsError (List Issue) :=
  match env.milestoneFetch with
  | Except.error e => Except.error e
  | Except.ok milestoneData =>
    let series := seriesOf milestoneData.title
    match scanReleases series env.releasePages with
    | Except.error e => Except.error e
    | Except.ok latestReleaseInSeries =>
      let options := buildIssueQuery milestone state latestReleaseInSeries
      match paginateConcat (env.issuePages options) with
      | Except.error e => Except.error e
      | Except.ok pulls =>
        match latestReleaseInSeries with
        | some latest =>
          match latest.published_at with
          | some ts => Except.ok (pulls.filter (closedAfter ts))
          | none => Except.ok pulls
        | none => Except.ok pulls

/-- The predicate the release scan applies to a release that does not
throw: its (non-null) name starts with the series. -/
def releaseMatches (series : String) (r : Release) : Bool :=
  match r.name with
  | some n => jsStartsWith n series
  | none => false

/-! ### Helper lemmas -/

/-- Removing a non-empty pattern that sits at the front of the list strips
exactly that prefix. -/
theorem removeFirst_append_self (pat l : List Char) (hne : pat ≠ []) :
    removeFirst pat (pat ++ l) = l := by
  cases pat with
  | nil => exact absurd rfl hne
  | cons c cs =>
    show removeFirst (c :: cs) (c :: (cs ++ l)) = l
    rw [removeFirst]
    have hpre : (c :: cs).isPrefixOf (c :: (cs ++ l)) = true := by
      rw [List.isPrefixOf_iff_prefix]
      exact List.prefix_append (c :: cs) l
    rw [if_pos hpre]
    exact List.drop_left (c :: cs) l

/-- If the pattern occurs nowhere in the list, `removeFirst` is the
identity. -/
theorem removeFirst_of_not_hasSubstr (pat : List Char) :
    ∀ l : List Char, hasSubstr pat l = false → removeFirst pat l = l := by
  intro l
  induction l with
  | nil => intro _; rfl
  | cons c rest ih =>
    intro h
    rw [hasSubstr, Bool.or_eq_false_iff] at h
    rw [removeFirst, if_neg (by rw [h.1]; exact Bool.false_ne_true), ih h.2]

/-- Issue pagination over pages that all resolve concatenates them in
order. -/
theorem paginateConcat_map_ok {α : Type} (pages : List (List α)) :
    paginateConcat (pages.map Except.ok) = Except.ok pages.flatten := by
  induction pages with
  | nil => rfl
  | cons p ps ih => rw [List.map_cons, paginateConcat, ih, List.flatten_cons]

/-- A client error at an issue-page fetch aborts the pagination,
discarding the pages accumulated so far. -/
theorem paginateConcat_map_ok_append_error {α : Type} (pres : List (List α))
    (e : JsError) (rest : List (Except JsError (List α))) :
    paginateConcat (pres.map Except.ok ++ Except.error e :: rest) = Except.error e := by
  induction pres with
  | nil => rfl
  | cons p ps ih => rw [List.map_cons, List.cons_append, paginateConcat, ih]

/-- The milestone lookup over pages that all resolve returns the first
title match of the concatenated pages. -/
theorem getMilestoneByTitle_flatten (title : String) (pages : List (List Milestone)) :
    getMilestoneByTitle title (pages.map Except.ok)
      = Except.ok (pages.flatten.find? (fun m => m.title == title)) := by
  induction pages with
  | nil => rfl
  | cons p ps ih =>
    rw [List.map_cons, getMilestoneByTitle, List.flatten_cons, List.find?_append]
    cases hp : p.find? (fun m => m.title == title) with
    | some m => rw [Option.or]
    | none => rw [Option.or, ih]

/-- When every release in the page has a non-null name, the in-page `find`
does not throw and returns the first release whose name starts with the
series. -/
theorem findReleaseInPage_eq_find? (series : String) :
    ∀ page : List Release, (∀ r ∈ page, r.name ≠ none) →
      findReleaseInPage series page = Except.ok (page.find? (releaseMatches series)) := by
  intro page
  induction page with
  | nil => intro _; rfl
  | cons r rest ih =>
    intro h
    cases hn : r.name with
    | none => exact absurd hn (h r (List.mem_cons_self r rest))
    | some n =>
      have hm : releaseMatches series r = jsStartsWith n series := by
        rw [releaseMatches, hn]
      have ih' := ih (fun x hx => h x (List.mem_cons_of_mem r hx))
      simp only [findReleaseInPage, hn, List.find?_cons, hm]
      cases hs : jsStartsWith n series <;> simp [hs, ih']

/-- When every release in every page has a non-null name, the release scan
returns the first match of the concatenated pages (or `none`). -/
theorem scanReleases_map_ok_eq_find? (series : String) :
    ∀ pages : List (List Release), (∀ r ∈ pages.flatten, r.name ≠ none) →
      scanReleases series (pages.map Except.ok)
        = Except.ok (pages.flatten.find? (releaseMatches series)) := by
  intro pages
  induction pages with
  | nil => intro _; rfl
  | cons p ps ih =>
    intro h
    rw [List.flatten_cons] at h
    have hp : ∀ r ∈ p, r.name ≠ none := fun r hr =>
      h r (List.mem_append_left _ hr)
    have hps : ∀ r ∈ ps.flatten, r.name ≠ none := fun r hr =>
      h r (List.mem_append_right _ hr)
    rw [List.map_cons, scanReleases, findReleaseInPage_eq_find? series p hp,
      List.flatten_cons, List.find?_append]
    cases hf : p.find? (releaseMatches series) with
    | some r => rw [Option.or]
    | none => rw [Option.or, ih hps]

/-- Inversion: a scan over `Except.ok page :: rest` that resolves to
`none` found nothing in `page` and nothing in `rest`. -/
theorem scanReleases_cons_ok_none (series : String) (page : List Release)
    (rest : List (Except JsError (List Release)))
    (h : scanReleases series (Except.ok page :: rest) = Except.ok none) :
    findReleaseInPage series page = Except.ok none
      ∧ scanReleases series rest = Except.ok none := by
  rw [scanReleases] at h
  cases hf : findReleaseInPage series page with
  | error e => simp [hf] at h
  | ok o =>
    cases o with
    | some r => simp [hf] at h
    | none => simp only [hf] at h; exact ⟨rfl, h⟩

/-- A client error at a release-page fetch propagates when the pages
before it produced no match. -/
theorem scanReleases_append_error (series : String) (e : JsError) :
    ∀ (pres rest : List (Except JsError (List Release))),
      scanReleases series pres = Except.ok none →
      scanReleases series (pres ++ Except.error e :: rest) = Except.error e := by
  intro pres
  induction pres with
  | nil => intro rest _; rfl
  | cons p ps ih =>
    intro rest h
    cases p with
    | error e' => exact absurd h (by rw [scanReleases]; simp)
    | ok page =>
      obtain ⟨h1, h2⟩ := scanReleases_cons_ok_none series page ps h
      rw [List.cons_append, scanReleases, h1, ih rest h2]

/-- The scan stops at the first matching page: pages after it are never
fetched, so the result is the same for every continuation. -/
theorem scanReleases_append_found (series : String) (pg : List Release) (r : Release) :
    ∀ (pres rest : List (Except JsError (List Release))),
      scanReleases series pres = Except.ok none →
      findReleaseInPage series pg = Except.ok (some r) →
      scanReleases series (pres ++ Except.ok pg :: rest) = Except.ok (some r) := by
  intro pres
  induction pres with
  | nil => intro rest _ hpg; rw [List.nil_append, scanReleases, hpg]
  | cons p ps ih =>
    intro rest h hpg
    cases p with
    | error e' => exact absurd h (by rw [scanReleases]; simp)
    | ok page =>
      obtain ⟨h1, h2⟩ := scanReleases_cons_ok_none series page ps h
      rw [List.cons_append, scanReleases, h1, ih rest h2 hpg]

/-! ### Claim theorems -/

/-- Claim C2: over milestone pages with pairwise-unique titles,
`getMilestoneByTitle` returns exactly the milestone bearing a present
title, and resolves to the absent signal (`none`) after iterating all
pages when the title is absent. -/
theorem getMilestoneByTitle_unique_lookup (pages : List (List Milestone)) (title : String)
    (huniq : pages.flatten.Pairwise (fun a b => a.title ≠ b.title)) :
    (∀ m ∈ pages.flatten, m.title = title →
        getMilestoneByTitle title (pages.map Except.ok) = Except.ok (some m))
    ∧ ((∀ m ∈ pages.flatten, m.title ≠ title) →
        getMilestoneByTitle title (pages.map Except.ok) = Except.ok none) := by
  constructor
  · intro m hmem hm
    rw [getMilestoneByTitle_flatten]
    cases hf : pages.flatten.find? (fun x => x.title == title) with
    | none =>
      exact absurd (by exact beq_iff_eq.mpr hm)
        (by simpa using List.find?_eq_none.mp hf m hmem)
    | some m' =>
      have hm' : m'.title = title := by
        have := List.find?_some hf
        simpa using this
      have hmem' : m' ∈ pages.flatten := List.mem_of_find?_eq_some hf
      have hsymm : Symmetric (fun a b : Milestone => a.title ≠ b.title) :=
        fun _ _ h e => h e.symm
      have : m' = m := by
        by_contra hne
        exact List.Pairwise.forall hsymm huniq hmem' hmem hne (hm'.trans hm.symm)
      rw [this]
  · intro habs
    rw [getMilestoneByTitle_flatten]
    rw [List.find?_eq_none.mpr (fun x hx => by simpa using habs x hx)]

/-- Witness for C2 at concrete pages. -/
theorem getMilestoneByTitle_unique_lookup_witness :
    getMilestoneByTitle "b" (List.map Except.ok [[⟨1, "a"⟩], [⟨2, "b"⟩]])
      = Except.ok (some ⟨2, "b"⟩)
    ∧ getMilestoneByTitle "c" (List.map Except.ok [[⟨1, "a"⟩], [⟨2, "b"⟩]])
      = Except.ok none :=
  ⟨(getMilestoneByTitle_unique_lookup [[⟨1, "a"⟩], [⟨2, "b"⟩]] "b" (by decide)).1
      ⟨2, "b"⟩ (by decide) rfl,
    (getMilestoneByTitle_unique_lookup [[⟨1, "a"⟩], [⟨2, "b"⟩]] "c" (by decide)).2
      (by decide)⟩

/-- Claim C3 counterexample: in the source the series is computed with
JavaScript `replace`, which removes the first occurrence of
`"Gutenberg "` anywhere in the title, so a title in which the prefix is
absent as a *leading* prefix is not always returned unchanged. -/
theorem seriesOf_counterexample :
    jsStartsWith "A Gutenberg B" "Gutenberg " = false
    ∧ seriesOf "A Gutenberg B" ≠ "A Gutenberg B" := by
  decide

/-- Claim C3 (amended): the series is the title with the first occurrence of
the literal substring `"Gutenberg "` removed: a title of the form
`"Gutenberg " ++ s` yields `s`, and a title in which `"Gutenberg "`
occurs nowhere is returned unchanged. -/
theorem seriesOf_removes_first_occurrence :
    (∀ s : String, seriesOf ("Gutenberg " ++ s) = s)
    ∧ (∀ title : String,
        hasSubstr "Gutenberg ".toList title.toList = false → seriesOf title = title) := by
  constructor
  · intro s
    show String.mk (removeFirst "Gutenberg ".toList ("Gutenberg " ++ s).toList) = s
    have hd : ("Gutenberg " ++ s).toList = "Gutenberg ".toList ++ s.toList :=
      String.data_append _ _
    rw [hd, removeFirst_append_self _ _ (by decide)]
    rfl
  · intro t h
    show String.mk (removeFirst "Gutenberg ".toList t.toList) = t
    rw [removeFirst_of_not_hasSubstr _ _ h]
    rfl

/-- Witness for C3 (amended) at concrete titles. -/
theorem seriesOf_removes_first_occurrence_witness :
    seriesOf ("Gutenberg " ++ "16.2") = "16.2" ∧ seriesOf "Other" = "Other" :=
  ⟨seriesOf_removes_first_occurrence.1 "16.2",
    seriesOf_removes_first_occurrence.2 "Other" (by decide)⟩

/-- Claim C8: when several milestones share the target title, the lookup
returns the first one in concatenated page order (the `find?` of the
flattened pages); determinism is definitional, the embedding being a pure
function of the fixed page sequence. -/
theorem getMilestoneByTitle_first_of_duplicates (pages : List (List Milestone))
    (title : String) (m₁ m₂ : Milestone)
    (h₁ : m₁ ∈ pages.flatten) (h₂ : m₂ ∈ pages.flatten) (hne : m₁ ≠ m₂)
    (ht₁ : m₁.title = title) (ht₂ : m₂.title = title) :
    ∃ m : Milestone,
      getMilestoneByTitle title (pages.map Except.ok) = Except.ok (some m)
        ∧ pages.flatten.find? (fun x => x.title == title) = some m := by
  cases hf : pages.flatten.find? (fun x => x.title == title) with
  | none =>
    exact absurd (by exact beq_iff_eq.mpr ht₁)
      (by simpa using List.find?_eq_none.mp hf m₁ h₁)
  | some m =>
    exact ⟨m, by rw [getMilestoneByTitle_flatten, hf], rfl⟩

/-- Witness for C8 at concrete pages holding two milestones titled "b". -/
theorem getMilestoneByTitle_first_of_duplicates_witness :
    ∃ m : Milestone,
      getMilestoneByTitle "b" (List.map Except.ok [[⟨1, "b"⟩], [⟨2, "b"⟩]])
        = Except.ok (some m)
        ∧ (List.flatten [[⟨1, "b"⟩], [⟨2, "b"⟩]]).find? (fun x => x.title == "b") = some m :=
  getMilestoneByTitle_first_of_duplicates [[⟨1, "b"⟩], [⟨2, "b"⟩]] "b"
    ⟨1, "b"⟩ ⟨2, "b"⟩ (by decide) (by decide) (by decide) rfl rfl

/-- Claim C4 counterexample: a release page holding a null-named release ahead
of a release whose name starts with the series makes the scan throw a
`TypeError` instead of selecting that matching release. -/
theorem scanReleases_counterexample :
    scanReleases "1" [Except.ok [⟨none, some 5⟩, ⟨some "1", some 3⟩]]
      = Except.error (JsError.typeError "Cannot read properties of null (reading startsWith)")
    ∧ releaseMatches "1" ⟨some "1", some 3⟩ = true := by
  decide

/-- Claim C4 (amended): provided every release in the pages has a non-null
name, the release scan selects the first release in concatenated page
order whose name starts with the derived series (`none` when no release
matches), and it stops at the first matching page: the continuation after
that page — even one whose fetch would fail — never affects the result. -/
theorem scanReleases_first_match :
    (∀ (series : String) (pages : List (List Release)),
      (∀ r ∈ pages.flatten, r.name ≠ none) →
      scanReleases series (pages.map Except.ok)
        = Except.ok (pages.flatten.find? (releaseMatches series)))
    ∧ (∀ (series : String) (pg : List Release) (r : Release)
        (pres rest : List (Except JsError (List Release))),
      scanReleases series pres = Except.ok none →
      findReleaseInPage series pg = Except.ok (some r) →
      scanReleases series (pres ++ Except.ok pg :: rest) = Except.ok (some r)) :=
  ⟨scanReleases_map_ok_eq_find?,
    fun series pg r pres rest h1 h2 => scanReleases_append_found series pg r pres rest h1 h2⟩

/-- Witness for C4 (amended): a match on the second page is selected, and
the scan result ignores an error page placed after the matching page. -/
theorem scanReleases_first_match_witness :
    scanReleases "1" (List.map Except.ok [[⟨some "2", none⟩], [⟨some "1", some 3⟩]])
      = Except.ok (List.find? (releaseMatches "1") (List.flatten [[⟨some "2", none⟩], [⟨some "1", some 3⟩]]))
    ∧ scanReleases "1"
        ([Except.ok [⟨some "2", none⟩]] ++ Except.ok [⟨some "1", some 3⟩]
          :: [Except.error (JsError.transport "boom")])
      = Except.ok (some ⟨some "1", some 3⟩) :=
  ⟨scanReleases_first_match.1 "1" [[⟨some "2", none⟩], [⟨some "1", some 3⟩]] (by decide),
    scanReleases_first_match.2 "1" [⟨some "1", some 3⟩] ⟨some "1", some 3⟩
      [Except.ok [⟨some "2", none⟩]] [Except.error (JsError.transport "boom")]
      (by decide) (by decide)⟩

/-- Claim C5: the issue-list query carries the given milestone ID and state;
its `since` field is present exactly when a release was found, and then
equals that release's publish timestamp (`published_at`, possibly null). -/
theorem buildIssueQuery_fields (mid : Nat) (st : Option String) :
    ((buildIssueQuery mid st none).milestone = mid
      ∧ (buildIssueQuery mid st none).state = st
      ∧ (buildIssueQuery mid st none).since = none)
    ∧ ∀ r : Release,
        (buildIssueQuery mid st (some r)).milestone = mid
          ∧ (buildIssueQuery mid st (some r)).state = st
          ∧ (buildIssueQuery mid st (some r)).since = some r.published_at :=
  ⟨⟨rfl, rfl, rfl⟩, fun _ => ⟨rfl, rfl, rfl⟩⟩

/-- Claim C6: paginated accumulation is concatenation — over pages that all
resolve, the accumulated sequence is the flattening of the pages in fetch
order, preserving inter-page and intra-page order. -/
theorem paginateConcat_is_concatenation (α : Type) (pages : List (List α)) :
    paginateConcat (pages.map Except.ok) = Except.ok pages.flatten :=
  paginateConcat_map_ok pages

/-- Claim C1 counterexample: a release matching the derived series is found,
but its `published_at` is null, so the code skips the post-filter and
returns an issue whose closed-at is null — which the claimed filter would
have removed. -/
theorem getIssuesByMilestone_counterexample :
    scanReleases (seriesOf "Gutenberg 1") [Except.ok [⟨some "1", none⟩]]
      = Except.ok (some ⟨some "1", none⟩)
    ∧ getIssuesByMilestone
        ⟨Except.ok ⟨1, "Gutenberg 1"⟩, [Except.ok [⟨some "1", none⟩]],
          fun _ => [Except.ok [⟨0, none⟩]]⟩ 1 none
      = Except.ok [⟨0, none⟩]
    ∧ (⟨0, none⟩ : Issue).closed_at = none := by
  decide

/-- Claim C1 (amended): if a release matching the derived series was found and
its publish timestamp is non-null, `getIssuesByMilestone` returns exactly
the accumulated issues whose closed-at is non-null and strictly later
than that timestamp; if no release name starts with the derived series,
it returns the full accumulated sequence unfiltered, regardless of close
time. -/
theorem getIssuesByMilestone_postfilter (m : Milestone) (rps : List (List Release))
    (ips : List (List Issue)) (mid : Nat) (st : Option String) :
    (∀ (r : Release) (ts : Int),
      scanReleases (seriesOf m.title) (rps.map Except.ok) = Except.ok (some r) →
      r.published_at = some ts →
      getIssuesByMilestone
          ⟨Except.ok m, rps.map Except.ok, fun _ => ips.map Except.ok⟩ mid st
        = Except.ok (ips.flatten.filter (closedAfter ts)))
    ∧ (scanReleases (seriesOf m.title) (rps.map Except.ok) = Except.ok none →
      getIssuesByMilestone
          ⟨Except.ok m, rps.map Except.ok, fun _ => ips.map Except.ok⟩ mid st
        = Except.ok ips.flatten) := by
  constructor
  · intro r ts hscan hpub
    simp only [getIssuesByMilestone, hscan, paginateConcat_map_ok, hpub]
  · intro hscan
    simp only [getIssuesByMilestone, hscan, paginateConcat_map_ok]

/-- Witness for C1 (amended): one release published at 10; of three
issues (closed-at null, 9, 11) only the one closed at 11 survives; with a
non-matching series the same issues come back whole. -/
theorem getIssuesByMilestone_postfilter_witness :
    getIssuesByMilestone
        ⟨Except.ok ⟨1, "Gutenberg 1"⟩, List.map Except.ok [[⟨some "1", some 10⟩]],
          fun _ => List.map Except.ok [[⟨0, none⟩, ⟨1, some 9⟩, ⟨2, some 11⟩]]⟩ 1 none
      = Except.ok [⟨2, some 11⟩]
    ∧ getIssuesByMilestone
        ⟨Except.ok ⟨1, "Gutenberg 3"⟩, List.map Except.ok [[⟨some "1", some 10⟩]],
          fun _ => List.map Except.ok [[⟨0, none⟩, ⟨1, some 9⟩, ⟨2, some 11⟩]]⟩ 1 none
      = Except.ok [⟨0, none⟩, ⟨1, some 9⟩, ⟨2, some 11⟩] :=
  ⟨((getIssuesByMilestone_postfilter ⟨1, "Gutenberg 1"⟩ [[⟨some "1", some 10⟩]]
      [[⟨0, none⟩, ⟨1, some 9⟩, ⟨2, some 11⟩]] 1 none).1
      ⟨some "1", some 10⟩ 10 (by decide) rfl).trans (by decide),
    ((getIssuesByMilestone_postfilter ⟨1, "Gutenberg 3"⟩ [[⟨some "1", some 10⟩]]
      [[⟨0, none⟩, ⟨1, some 9⟩, ⟨2, some 11⟩]] 1 none).2 (by decide)).trans (by decide)⟩

/-- Claim C9: when the matched release's `published_at` is null, the truthiness
gate `latestReleaseInSeries?.published_at` is false, so no closed-at
post-filter is applied and the full accumulated sequence is returned. -/
theorem getIssuesByMilestone_null_published (m : Milestone) (rps : List (List Release))
    (ips : List (List Issue)) (mid : Nat) (st : Option String) (r : Release)
    (hscan : scanReleases (seriesOf m.title) (rps.map Except.ok) = Except.ok (some r))
    (hpub : r.published_at = none) :
    getIssuesByMilestone
        ⟨Except.ok m, rps.map Except.ok, fun _ => ips.map Except.ok⟩ mid st
      = Except.ok ips.flatten := by
  simp only [getIssuesByMilestone, hscan, paginateConcat_map_ok, hpub]

/-- Witness for C9 at a concrete environment. -/
theorem getIssuesByMilestone_null_published_witness :
    getIssuesByMilestone
        ⟨Except.ok ⟨1, "Gutenberg 2"⟩, List.map Except.ok [[⟨some "2.1", none⟩]],
          fun _ => List.map Except.ok [[⟨0, none⟩, ⟨1, some 9⟩]]⟩ 1 none
      = Except.ok [⟨0, none⟩, ⟨1, some 9⟩] :=
  (getIssuesByMilestone_null_published ⟨1, "Gutenberg 2"⟩ [[⟨some "2.1", none⟩]]
    [[⟨0, none⟩, ⟨1, some 9⟩]] 1 none ⟨some "2.1", none⟩ (by decide) rfl).trans (by decide)

/-- Claim C7: a failing milestone-by-ID fetch propagates unchanged and the
result is independent of the release and issue pages (nothing further is
fetched); and an error raised mid-operation — at a release-page fetch
before any match, or at an issue-page fetch — propagates unchanged,
discarding the pages accumulated so far. -/
theorem getIssuesByMilestone_error_propagation :
    (∀ (e : JsError) (rps : List (Except JsError (List Release)))
        (ips : IssueQuery → List (Except JsError (List Issue))) (mid : Nat) (st : Option String),
      getIssuesByMilestone ⟨Except.error e, rps, ips⟩ mid st = Except.error e)
    ∧ (∀ (m : Milestone) (pres rest : List (Except JsError (List Release))) (e : JsError)
        (ips : IssueQuery → List (Except JsError (List Issue))) (mid : Nat) (st : Option String),
      scanReleases (seriesOf m.title) pres = Except.ok none →
      getIssuesByMilestone ⟨Except.ok m, pres ++ Except.error e :: rest, ips⟩ mid st
        = Except.error e)
    ∧ (∀ (m : Milestone) (rps : List (Except JsError (List Release)))
        (latest : Option Release) (ipres : List (List Issue)) (e : JsError)
        (irest : List (Except JsError (List Issue))) (mid : Nat) (st : Option String),
      scanReleases (seriesOf m.title) rps = Except.ok latest →
      getIssuesByMilestone
          ⟨Except.ok m, rps, fun _ => ipres.map Except.ok ++ Except.error e :: irest⟩ mid st
        = Except.error e) := by
  refine ⟨fun e rps ips mid st => rfl, ?_, ?_⟩
  · intro m pres rest e ips mid st hscan
    simp only [getIssuesByMilestone, scanReleases_append_error (seriesOf m.title) e pres rest hscan]
  · intro m rps latest ipres e irest mid st hscan
    simp only [getIssuesByMilestone, hscan, paginateConcat_map_ok_append_error]

/-- Witness for C7 at concrete environments for each of the three error
sites. -/
theorem getIssuesByMilestone_error_propagation_witness :
    getIssuesByMilestone
        ⟨Except.error (JsError.transport "down"), [Except.ok [⟨some "1", some 3⟩]],
          fun _ => [Except.ok [⟨0, some 4⟩]]⟩ 1 none
      = Except.error (JsError.transport "down")
    ∧ getIssuesByMilestone
        ⟨Except.ok ⟨1, "Gutenberg 1"⟩,
          [Except.ok [⟨some "2", none⟩]] ++ Except.error (JsError.transport "mid") :: [],
          fun _ => [Except.ok [⟨0, some 4⟩]]⟩ 1 none
      = Except.error (JsError.transport "mid")
    ∧ getIssuesByMilestone
        ⟨Except.ok ⟨1, "Gutenberg 1"⟩, [],
          fun _ => List.map Except.ok [[⟨0, some 4⟩]]
            ++ Except.error (JsError.transport "late") :: []⟩ 1 none
      = Except.error (JsError.transport "late") :=
  ⟨getIssuesByMilestone_error_propagation.1 (JsError.transport "down")
      [Except.ok [⟨some "1", some 3⟩]] (fun _ => [Except.ok [⟨0, some 4⟩]]) 1 none,
    getIssuesByMilestone_error_propagation.2.1 ⟨1, "Gutenberg 1"⟩
      [Except.ok [⟨some "2", none⟩]] [] (JsError.transport "mid")
      (fun _ => [Except.ok [⟨0, some 4⟩]]) 1 none (by decide),
    getIssuesByMilestone_error_propagation.2.2 ⟨1, "Gutenberg 1"⟩ [] none
      [[⟨0, some 4⟩]] (JsError.transport "late") [] 1 none (by decide)⟩

/-- Claim C10: the in-page release scan dereferences each candidate's name, so
an input in which a null-named release precedes any match makes the whole
operation throw a `TypeError` rather than skip it or return a result —
even though a release matching the series sits right after it. -/
theorem getIssuesByMilestone_null_name_throws :
    getIssuesByMilestone
        ⟨Except.ok ⟨1, "Gutenberg 1"⟩,
          [Except.ok [⟨none, some 5⟩, ⟨some "1", some 3⟩]],
          fun _ => [Except.ok [⟨0, some 4⟩]]⟩ 1 none
      = Except.error (JsError.typeError "Cannot read properties of null (reading startsWith)")
    ∧ releaseMatches (seriesOf "Gutenberg 1") ⟨some "1", some 3⟩ = true := by
  decide

end Gutenberg
